import Mathlib

/-
Verification of the Simon Says round engine (src/app/index.tsx).
The React component state and its handlers are shallowly embedded:
each useState variable becomes a field of GameState, each handler a
function on GameState, and the asynchronous timers (the playSequence
pacing and the 1000 ms post-win setTimeout) become explicit events of
a step relation. Randomness (Math.random color draws) is modelled by
quantifying over the drawn color.
-/

namespace Simon

/-- Embeds enum Color from src/app/index.tsx: the fixed 4-color set. -/
inductive Color where
  | green : Color
  | red : Color
  | yellow : Color
  | blue : Color
deriving DecidableEq, Repr

/-- Embeds the constant array colors = [Green, Red, Yellow, Blue]. -/
def colors : List Color := [Color.green, Color.red, Color.yellow, Color.blue]

/-- Oscillator waveform as set by playTone: sawtooth for the error tone, sine otherwise. -/
inductive Waveform where
  | sine : Waveform
  | sawtooth : Waveform
deriving DecidableEq, Repr

/-- Embeds the FREQUENCIES record of src/app/index.tsx (Hz, exact rationals). -/
def FREQUENCIES : Color → ℚ
  | Color.green => 32963 / 100
  | Color.red => 26163 / 100
  | Color.yellow => 220
  | Color.blue => 16481 / 100

/-- Embeds the constant ERROR_FREQ = 110. -/
def ERROR_FREQ : ℚ := 110

/-- Argument of playTone: a Color or the literal "error". -/
inductive ToneArg where
  | colorArg : Color → ToneArg
  | errorArg : ToneArg
deriving DecidableEq, Repr

/-- An emitted tone request: frequency, waveform and duration in seconds. -/
structure Tone where
  freq : ℚ
  wave : Waveform
  duration : ℚ
deriving DecidableEq, Repr

/-- Embeds the frequency/waveform selection of playTone in src/app/index.tsx:
freq = color === "error" ? ERROR_FREQ : FREQUENCIES[color], type = "sawtooth"
or "sine". The soundEnabled early-return inside playTone only silences audio
output; the call and its parameters are what the engine emits, and that is
what this function records. -/
def playToneSpec (arg : ToneArg) (duration : ℚ) : Tone :=
  { freq := match arg with
      | ToneArg.errorArg => ERROR_FREQ
      | ToneArg.colorArg c => FREQUENCIES c
    wave := match arg with
      | ToneArg.errorArg => Waveform.sawtooth
      | ToneArg.colorArg _ => Waveform.sine
    duration := duration }

/-- The component state of the Game component in src/app/index.tsx: one field
per useState hook, plus pendingGrow counting setTimeout(addNewColorToSequence)
callbacks that are scheduled and not yet fired (the source never cancels them),
and store modelling the AsyncStorage value under HIGH_SCORE_KEY. -/
structure GameState where
  score : Nat
  highScore : Nat
  gameStarted : Bool
  gameOver : Bool
  sequence : List Color
  playerSequence : List Color
  activeColor : Option Color
  isPlayerTurn : Bool
  soundEnabled : Bool
  pendingGrow : Nat
  store : Option String
deriving DecidableEq, Repr

/-- The useState initial values of the Game component, with no scheduled
timers and an empty persistent store. -/
def initialState : GameState :=
  { score := 0
    highScore := 0
    gameStarted := false
    gameOver := false
    sequence := []
    playerSequence := []
    activeColor := none
    isPlayerTurn := false
    soundEnabled := true
    pendingGrow := 0
    store := none }

/-- The four engine states named by the specification. -/
inductive EngineState where
  | idle : EngineState
  | playback : EngineState
  | playerTurn : EngineState
  | gameOver : EngineState
deriving DecidableEq, Repr

/-- Maps the component flags to the specification states, following the
renderers of src/app/index.tsx: gameOver is checked first (button label,
pad disabling), then gameStarted distinguishes Idle, then isPlayerTurn
distinguishes PlayerTurn from Playback (pad disabled = !isPlayerTurn ||
gameOver; the playback effect runs when gameStarted and not gameOver and
not yet player turn). -/
def engineState (s : GameState) : EngineState :=
  if s.gameOver then EngineState.gameOver
  else if ¬s.gameStarted then EngineState.idle
  else if s.isPlayerTurn then EngineState.playerTurn
  else EngineState.playback

/-- Embeds handleStartGame of src/app/index.tsx; firstColor is the random
draw colors[Math.floor(Math.random() * colors.length)]. Note the source
clears no pending timer, so pendingGrow and store are untouched. -/
def handleStartGame (s : GameState) (firstColor : Color) : GameState :=
  { s with gameStarted := true
           gameOver := false
           score := 0
           playerSequence := []
           isPlayerTurn := false
           activeColor := none
           sequence := [firstColor] }

/-- Embeds addNewColorToSequence of src/app/index.tsx; newColor is the
random draw appended to the previous sequence. -/
def addNewColorToSequence (s : GameState) (newColor : Color) : GameState :=
  { s with isPlayerTurn := false
           sequence := s.sequence ++ [newColor] }

/-- Embeds saveHighScore of src/app/index.tsx: AsyncStorage.setItem of the
decimal string of the new high score. -/
def saveHighScore (newHighScore : Nat) : Option String :=
  some (toString newHighScore)

/-- Embeds endGame of src/app/index.tsx: update and persist the high score
when score > highScore, then clear gameStarted, sequence and playerSequence. -/
def endGame (s : GameState) : GameState :=
  let s1 := if s.score > s.highScore then
      { s with highScore := s.score, store := saveHighScore s.score }
    else s
  { s1 with gameStarted := false, sequence := [], playerSequence := [] }

/-- Embeds the JavaScript comparison a[i] !== b[i] on color arrays: an
out-of-range read yields undefined, and undefined !== someColor is true
while undefined !== undefined is false. -/
def jsIndexNe (a : List Color) (b : List Color) (i : Nat) : Bool :=
  match a[i]?, b[i]? with
  | some x, some y => decide (x ≠ y)
  | none, none => false
  | _, _ => true

/-- Embeds handleColorPress of src/app/index.tsx, returning the updated
state and the list of playTone calls it makes, in call order. The guard
mirrors if (!gameStarted || !isPlayerTurn || gameOver) return. The mismatch
test compares newPlayerSequence and sequence at index
newPlayerSequence.length - 1. The completing branch models
setTimeout(addNewColorToSequence, 1000) by incrementing pendingGrow. -/
def handleColorPress (s : GameState) (c : Color) : GameState × List Tone :=
  if ¬s.gameStarted ∨ ¬s.isPlayerTurn ∨ s.gameOver then (s, [])
  else
    let tapTone := playToneSpec (ToneArg.colorArg c) (2 / 5)
    let newPlayerSequence := s.playerSequence ++ [c]
    if jsIndexNe newPlayerSequence s.sequence (newPlayerSequence.length - 1) then
      (endGame { s with gameOver := true },
        [tapTone, playToneSpec ToneArg.errorArg (4 / 5)])
    else
      let s1 := { s with playerSequence := newPlayerSequence }
      if newPlayerSequence.length = s.sequence.length then
        ({ s1 with score := s.score + 1, pendingGrow := s.pendingGrow + 1 }, [tapTone])
      else
        (s1, [tapTone])

/-- Embeds the completion of playSequence in src/app/index.tsx (its final
setPlayerSequence([]) and setIsPlayerTurn(true), with activeColor left at
null by the loop), guarded by the condition of the effect that launches it:
gameStarted, nonempty sequence and not gameOver. -/
def playSequenceDone (s : GameState) : GameState :=
  if s.gameStarted ∧ 0 < s.sequence.length ∧ ¬s.gameOver then
    { s with activeColor := none, playerSequence := [], isPlayerTurn := true }
  else s

/-- The scheduler events driving the engine: a press of the start button
with its random first color, the asynchronous completion of playSequence,
a pad tap, and the firing of a pending 1000 ms addNewColorToSequence
timeout with its random color. -/
inductive Event where
  | startGame : Color → Event
  | playbackDone : Event
  | tap : Color → Event
  | growFire : Color → Event
deriving DecidableEq, Repr

/-- One scheduler step: dispatches each event to the handler it triggers in
src/app/index.tsx. growFire consumes one pending timeout; the timeout body
addNewColorToSequence itself has no guard in the source. -/
def step (s : GameState) : Event → GameState
  | Event.startGame c => handleStartGame s c
  | Event.playbackDone => playSequenceDone s
  | Event.tap c => (handleColorPress s c).1
  | Event.growFire c =>
      if s.pendingGrow ≠ 0 then
        addNewColorToSequence { s with pendingGrow := s.pendingGrow - 1 } c
      else s

/-- Runs a list of events from a state. -/
def run (s : GameState) (evs : List Event) : GameState :=
  evs.foldl step s

/-- States reachable from the initial component state by scheduler events. -/
inductive Reachable : GameState → Prop where
  | init : Reachable initialState
  | next : ∀ {s : GameState}, Reachable s → ∀ (e : Event), Reachable (step s e)

/-- Decides whether an event is a processed mismatching tap, the one place
where endGame runs in src/app/index.tsx. -/
def isGameEnd (s : GameState) : Event → Bool
  | Event.tap c =>
      if ¬s.gameStarted ∨ ¬s.isPlayerTurn ∨ s.gameOver then false
      else jsIndexNe (s.playerSequence ++ [c]) s.sequence ((s.playerSequence ++ [c]).length - 1)
  | _ => false

/-- Collects the score at each game end (processed mismatching tap) along a run. -/
def endScores (s : GameState) : List Event → List Nat
  | [] => []
  | e :: evs => (if isGameEnd s e then [s.score] else []) ++ endScores (step s e) evs

/-- A JavaScript number as far as the high-score load path needs it: NaN or
an exact integer value. -/
inductive JsNum where
  | nan : JsNum
  | val : Int → JsNum
deriving DecidableEq, Repr

/-- White space skipped by the JavaScript parseInt before parsing. -/
def jsWhitespace (ch : Char) : Bool :=
  ch = ' ' ∨ ch = '\t' ∨ ch = '\n' ∨ ch = '\r' ∨ ch = '\x0b' ∨ ch = '\x0c' ∨ ch = ' '

/-- Value of a nonempty list of decimal digit characters. -/
def digitsVal (ds : List Char) : Nat :=
  ds.foldl (fun acc ch => acc * 10 + (ch.toNat - 48)) 0

/-- Embeds the JavaScript parseInt(str, 10) used by loadSettings: skip
leading white space, read an optional sign, take the longest prefix of
decimal digits; no digits gives NaN, otherwise the signed value of the
digits (modelled exactly rather than as a float). -/
def parseIntBase10 (str : String) : JsNum :=
  let cs := str.toList.dropWhile (fun ch => jsWhitespace ch)
  let signAndRest : Int × List Char :=
    match cs with
    | '-' :: rest => (-1, rest)
    | '+' :: rest => (1, rest)
    | _ => (1, cs)
  let ds := signAndRest.2.takeWhile (fun ch => ch.isDigit)
  if ds.isEmpty then JsNum.nan
  else JsNum.val (signAndRest.1 * (digitsVal ds : Int))

/-- Embeds the high-score branch of loadSettings in src/app/index.tsx: when
AsyncStorage holds a value under HIGH_SCORE_KEY the state becomes
parseInt(storedHighScore, 10); otherwise the useState initial value (0)
is kept. -/
def loadSettings (storedHighScore : Option String) : JsNum :=
  match storedHighScore with
  | some str => parseIntBase10 str
  | none => JsNum.val 0

/-- Characterisation of the PlayerTurn reading of the component flags. -/
theorem engineState_playerTurn_iff (s : GameState) :
    engineState s = EngineState.playerTurn ↔
      s.gameOver = false ∧ s.gameStarted = true ∧ s.isPlayerTurn = true := by
  unfold engineState
  split_ifs with h1 h2 h3 <;> simp_all

/-- Characterisation of the Playback reading of the component flags. -/
theorem engineState_playback_iff (s : GameState) :
    engineState s = EngineState.playback ↔
      s.gameOver = false ∧ s.gameStarted = true ∧ s.isPlayerTurn = false := by
  unfold engineState
  split_ifs with h1 h2 h3 <;> simp_all

/-- A tap whose guard fails leaves the state unchanged and emits nothing. -/
theorem handleColorPress_skip (s : GameState) (c : Color)
    (h : ¬s.gameStarted ∨ ¬s.isPlayerTurn ∨ s.gameOver) :
    handleColorPress s c = (s, []) := by
  unfold handleColorPress
  rw [if_pos h]

/-- The high score written by endGame is the maximum of the old high score
and the final score. -/
theorem endGame_highScore (t : GameState) :
    (endGame t).highScore = max t.highScore t.score := by
  unfold endGame
  by_cases h : t.score > t.highScore
  · simp [h, Nat.max_eq_right (Nat.le_of_lt h)]
  · simp [h, Nat.max_eq_left (Nat.le_of_not_lt h)]

/-- The store written by endGame: the decimal score when it beats the high
score, untouched otherwise. -/
theorem endGame_store (t : GameState) :
    (endGame t).store =
      if t.highScore < t.score then some (toString t.score) else t.store := by
  unfold endGame saveHighScore
  by_cases h : t.score > t.highScore
  · simp [h]
  · simp [h]

/-- The fields endGame leaves alone or clears unconditionally. -/
theorem endGame_fields (t : GameState) :
    (endGame t).score = t.score ∧ (endGame t).gameStarted = false ∧
      (endGame t).sequence = [] ∧ (endGame t).playerSequence = [] ∧
      (endGame t).gameOver = t.gameOver ∧ (endGame t).pendingGrow = t.pendingGrow ∧
      (endGame t).isPlayerTurn = t.isPlayerTurn := by
  unfold endGame
  by_cases h : t.score > t.highScore <;> simp [h]

/-- The skip guard of handleColorPress makes isGameEnd false. -/
theorem isGameEnd_skip (s : GameState) (c : Color)
    (hg : ¬s.gameStarted ∨ ¬s.isPlayerTurn ∨ s.gameOver) :
    isGameEnd s (Event.tap c) = false := by
  simp only [isGameEnd]
  rw [if_pos hg]

/-- With the guard passing, isGameEnd is exactly the mismatch test of
handleColorPress. -/
theorem isGameEnd_guard (s : GameState) (c : Color)
    (hg : ¬(¬s.gameStarted ∨ ¬s.isPlayerTurn ∨ s.gameOver)) :
    isGameEnd s (Event.tap c) =
      jsIndexNe (s.playerSequence ++ [c]) s.sequence ((s.playerSequence ++ [c]).length - 1) := by
  simp only [isGameEnd]
  rw [if_neg hg]

/-- The high score after one step: it becomes the maximum of the old high
score and the score exactly at a processed mismatching tap, and is
unchanged otherwise. -/
theorem step_highScore (s : GameState) (e : Event) :
    (step s e).highScore =
      if isGameEnd s e then max s.highScore s.score else s.highScore := by
  cases e with
  | startGame c => simp [step, handleStartGame, isGameEnd]
  | playbackDone =>
      unfold step playSequenceDone isGameEnd
      split_ifs <;> simp_all
  | growFire c =>
      unfold step addNewColorToSequence isGameEnd
      split_ifs <;> simp_all
  | tap c =>
      by_cases hg : ¬s.gameStarted ∨ ¬s.isPlayerTurn ∨ s.gameOver
      · have hs : step s (Event.tap c) = s := by
          simp only [step]
          rw [handleColorPress_skip s c hg]
        rw [hs, isGameEnd_skip s c hg]
        simp
      · simp only [step, handleColorPress, if_neg hg, isGameEnd_guard s c hg]
        by_cases hm : jsIndexNe (s.playerSequence ++ [c]) s.sequence
            ((s.playerSequence ++ [c]).length - 1) = true
        · rw [if_pos hm, if_pos hm]
          rw [endGame_highScore]
        · rw [if_neg hm, if_neg hm]
          by_cases hc : (s.playerSequence ++ [c]).length = s.sequence.length
          · rw [if_pos hc]
          · rw [if_neg hc]

/-- The persistent store after one step: it is written with the decimal
string of the score exactly at a processed mismatching tap that beats the
high score, and is unchanged otherwise. -/
theorem step_store (s : GameState) (e : Event) :
    (step s e).store =
      if isGameEnd s e = true ∧ s.highScore < s.score
      then some (toString s.score) else s.store := by
  cases e with
  | startGame c => simp [step, handleStartGame, isGameEnd]
  | playbackDone =>
      unfold step playSequenceDone isGameEnd
      split_ifs <;> simp_all
  | growFire c =>
      unfold step addNewColorToSequence isGameEnd
      split_ifs <;> simp_all
  | tap c =>
      by_cases hg : ¬s.gameStarted ∨ ¬s.isPlayerTurn ∨ s.gameOver
      · have hs : step s (Event.tap c) = s := by
          simp only [step]
          rw [handleColorPress_skip s c hg]
        rw [hs, isGameEnd_skip s c hg]
        simp
      · simp only [step, handleColorPress, if_neg hg, isGameEnd_guard s c hg]
        by_cases hm : jsIndexNe (s.playerSequence ++ [c]) s.sequence
            ((s.playerSequence ++ [c]).length - 1) = true
        · rw [if_pos hm]
          simp only [hm, true_and]
          rw [endGame_store]
        · rw [if_neg hm]
          simp only [hm, Bool.false_eq_true, false_and, if_false]
          by_cases hc : (s.playerSequence ++ [c]).length = s.sequence.length
          · rw [if_pos hc]
          · rw [if_neg hc]

/-- The index used by the mismatch test of handleColorPress is the length
of the player sequence before the tap. -/
theorem concatIdx (l : List Color) (c : Color) :
    (l ++ [c]).length - 1 = l.length := by
  simp

/-- A failed mismatch test means the sequence holds exactly the tapped
color at the tap index. -/
theorem jsIndexNe_concat_false {l seq : List Color} {c : Color}
    (h : jsIndexNe (l ++ [c]) seq ((l ++ [c]).length - 1) = false) :
    seq[l.length]? = some c := by
  rw [concatIdx] at h
  unfold jsIndexNe at h
  rw [List.getElem?_concat_length] at h
  cases hseq : seq[l.length]? with
  | none => rw [hseq] at h; simp at h
  | some y =>
      rw [hseq] at h
      simp only [decide_eq_false_iff_not, Decidable.not_not] at h
      rw [h]

/-- A tap differing from the in-range sequence element fails the
JavaScript equality and registers as a mismatch. -/
theorem jsIndexNe_concat_true {l seq : List Color} {c d : Color}
    (hd : seq[l.length]? = some d) (hne : c ≠ d) :
    jsIndexNe (l ++ [c]) seq ((l ++ [c]).length - 1) = true := by
  rw [concatIdx]
  unfold jsIndexNe
  rw [List.getElem?_concat_length, hd]
  simp [hne]

/-- A tap beyond the end of the sequence compares against undefined and
registers as a mismatch. -/
theorem jsIndexNe_concat_none {l seq : List Color} {c : Color}
    (hd : seq[l.length]? = none) :
    jsIndexNe (l ++ [c]) seq ((l ++ [c]).length - 1) = true := by
  rw [concatIdx]
  unfold jsIndexNe
  rw [List.getElem?_concat_length, hd]

/-- A tap matching the in-range sequence element passes the mismatch test. -/
theorem jsIndexNe_concat_eq {l seq : List Color} {c : Color}
    (hd : seq[l.length]? = some c) :
    jsIndexNe (l ++ [c]) seq ((l ++ [c]).length - 1) = false := by
  rw [concatIdx]
  unfold jsIndexNe
  rw [List.getElem?_concat_length, hd]
  simp

/-- Shape of handleColorPress on a processed mismatching tap. -/
theorem handleColorPress_mismatch (s : GameState) (c : Color)
    (hg : ¬(¬s.gameStarted ∨ ¬s.isPlayerTurn ∨ s.gameOver))
    (hm : jsIndexNe (s.playerSequence ++ [c]) s.sequence
      ((s.playerSequence ++ [c]).length - 1) = true) :
    handleColorPress s c = (endGame { s with gameOver := true },
      [playToneSpec (ToneArg.colorArg c) (2 / 5), playToneSpec ToneArg.errorArg (4 / 5)]) := by
  simp only [handleColorPress, if_neg hg]
  rw [if_pos hm]

/-- Shape of handleColorPress on a processed matching tap that does not yet
complete the sequence. -/
theorem handleColorPress_advance (s : GameState) (c : Color)
    (hg : ¬(¬s.gameStarted ∨ ¬s.isPlayerTurn ∨ s.gameOver))
    (hm : jsIndexNe (s.playerSequence ++ [c]) s.sequence
      ((s.playerSequence ++ [c]).length - 1) = false)
    (hc : ¬(s.playerSequence ++ [c]).length = s.sequence.length) :
    handleColorPress s c = ({ s with playerSequence := s.playerSequence ++ [c] },
      [playToneSpec (ToneArg.colorArg c) (2 / 5)]) := by
  simp only [handleColorPress, if_neg hg]
  rw [if_neg (by rw [hm]; exact Bool.false_ne_true), if_neg hc]

/-- Shape of handleColorPress on a processed matching tap that completes
the sequence: increment the score and schedule the grow timeout. -/
theorem handleColorPress_complete (s : GameState) (c : Color)
    (hg : ¬(¬s.gameStarted ∨ ¬s.isPlayerTurn ∨ s.gameOver))
    (hm : jsIndexNe (s.playerSequence ++ [c]) s.sequence
      ((s.playerSequence ++ [c]).length - 1) = false)
    (hc : (s.playerSequence ++ [c]).length = s.sequence.length) :
    handleColorPress s c =
      ({ s with
          playerSequence := s.playerSequence ++ [c]
          score := s.score + 1
          pendingGrow := s.pendingGrow + 1 },
        [playToneSpec (ToneArg.colorArg c) (2 / 5)]) := by
  simp only [handleColorPress, if_neg hg]
  rw [if_neg (by rw [hm]; exact Bool.false_ne_true), if_pos hc]

/-- The score after one step: it increments exactly at a processed matching
tap that completes the sequence, resets to zero on startGame, and is
unchanged otherwise. -/
theorem step_score (s : GameState) (e : Event) :
    (step s e).score = s.score ∨
      (∃ c, e = Event.startGame c ∧ (step s e).score = 0) ∨
      (∃ c, e = Event.tap c ∧ (step s e).score = s.score + 1 ∧
        ¬(¬s.gameStarted ∨ ¬s.isPlayerTurn ∨ s.gameOver) ∧
        jsIndexNe (s.playerSequence ++ [c]) s.sequence
          ((s.playerSequence ++ [c]).length - 1) = false ∧
        (s.playerSequence ++ [c]).length = s.sequence.length) := by
  cases e with
  | startGame c => exact Or.inr (Or.inl ⟨c, rfl, rfl⟩)
  | playbackDone =>
      left
      unfold step playSequenceDone
      split_ifs <;> rfl
  | growFire c =>
      left
      unfold step addNewColorToSequence
      split_ifs <;> rfl
  | tap c =>
      by_cases hg : ¬s.gameStarted ∨ ¬s.isPlayerTurn ∨ s.gameOver
      · left
        simp only [step]
        rw [handleColorPress_skip s c hg]
      · by_cases hm : jsIndexNe (s.playerSequence ++ [c]) s.sequence
            ((s.playerSequence ++ [c]).length - 1) = true
        · left
          simp only [step]
          rw [handleColorPress_mismatch s c hg hm]
          exact (endGame_fields _).1
        · by_cases hc : (s.playerSequence ++ [c]).length = s.sequence.length
          · refine Or.inr (Or.inr ⟨c, rfl, ?_, hg, Bool.not_eq_true _ ▸ hm, hc⟩)
            simp only [step]
            rw [handleColorPress_complete s c hg (Bool.not_eq_true _ ▸ hm) hc]
          · left
            simp only [step]
            rw [handleColorPress_advance s c hg (Bool.not_eq_true _ ▸ hm) hc]

/-- One step preserves the prefix relation between playerSequence and
sequence. -/
theorem step_playerPrefix (s : GameState) (e : Event)
    (h : s.playerSequence = s.sequence.take s.playerSequence.length) :
    (step s e).playerSequence =
      (step s e).sequence.take (step s e).playerSequence.length := by
  have hlen : s.playerSequence.length ≤ s.sequence.length := by
    have := congrArg List.length h
    rw [List.length_take] at this
    exact this ▸ Nat.min_le_right _ _
  cases e with
  | startGame c => simp [step, handleStartGame]
  | playbackDone =>
      simp only [step, playSequenceDone]
      split_ifs
      · rfl
      · exact h
  | growFire c =>
      simp only [step, addNewColorToSequence]
      split_ifs with hp
      · simpa [List.take_append_of_le_length hlen] using h
      · exact h
  | tap c =>
      by_cases hg : ¬s.gameStarted ∨ ¬s.isPlayerTurn ∨ s.gameOver
      · have hs : step s (Event.tap c) = s := by
          simp only [step]
          rw [handleColorPress_skip s c hg]
        rw [hs]
        exact h
      · by_cases hm : jsIndexNe (s.playerSequence ++ [c]) s.sequence
            ((s.playerSequence ++ [c]).length - 1) = true
        · simp only [step]
          rw [handleColorPress_mismatch s c hg hm]
          have hf := endGame_fields { s with gameOver := true }
          rw [hf.2.2.1, hf.2.2.2.1]
          rfl
        · have hm2 : jsIndexNe (s.playerSequence ++ [c]) s.sequence
              ((s.playerSequence ++ [c]).length - 1) = false := Bool.not_eq_true _ ▸ hm
          have hget : s.sequence[s.playerSequence.length]? = some c :=
            jsIndexNe_concat_false hm2
          have hnew : s.playerSequence ++ [c] =
              s.sequence.take (s.playerSequence ++ [c]).length := by
            rw [List.length_append, List.length_singleton, List.take_succ, hget]
            rw [← h]
            rfl
          by_cases hc : (s.playerSequence ++ [c]).length = s.sequence.length
          · simp only [step]
            rw [handleColorPress_complete s c hg hm2 hc]
            exact hnew
          · simp only [step]
            rw [handleColorPress_advance s c hg hm2 hc]
            exact hnew

/-- Every state reachable from the initial component state keeps
playerSequence equal to the prefix of sequence of its own length. -/
theorem reachable_playerPrefix {s : GameState} (h : Reachable s) :
    s.playerSequence = s.sequence.take s.playerSequence.length := by
  induction h with
  | init => rfl
  | next _ e ih => exact step_playerPrefix _ e ih

/-- Folding max over a list never goes below the start value. -/
theorem le_foldl_max (l : List Nat) (a : Nat) : a ≤ l.foldl max a := by
  induction l generalizing a with
  | nil => exact Nat.le_refl a
  | cons b l ih => exact Nat.le_trans (Nat.le_max_left a b) (ih (max a b))

/-- The high score after a run is the fold of max over the scores recorded
at each game end, started from the high score before the run. -/
theorem run_highScore (evs : List Event) (s : GameState) :
    (run s evs).highScore = (endScores s evs).foldl max s.highScore := by
  induction evs generalizing s with
  | nil => rfl
  | cons e evs ih =>
      have hrun : run s (e :: evs) = run (step s e) evs := rfl
      have hend : endScores s (e :: evs) =
          (if isGameEnd s e then [s.score] else []) ++ endScores (step s e) evs := rfl
      rw [hrun, hend, List.foldl_append, ih]
      by_cases h : isGameEnd s e = true
      · simp [h, step_highScore]
      · simp [h, step_highScore]

/-- Every color is in the fixed color array the random draws pick from. -/
theorem color_mem_colors (c : Color) : c ∈ colors := by
  cases c <;> simp [colors]

/-- A state with the gameOver flag set reads as the GameOver engine state. -/
theorem engineState_gameOver_of {t : GameState} (h : t.gameOver = true) :
    engineState t = EngineState.gameOver := by
  unfold engineState
  rw [if_pos h]

/-- Only a startGame event can clear the gameOver flag. -/
theorem gameOver_cleared_only_by_start (t : GameState) (e : Event)
    (hgo : t.gameOver = true) (hcl : (step t e).gameOver = false) :
    ∃ c, e = Event.startGame c := by
  cases e with
  | startGame c => exact ⟨c, rfl⟩
  | playbackDone =>
      exfalso
      simp only [step, playSequenceDone] at hcl
      split_ifs at hcl <;> simp_all
  | growFire c =>
      exfalso
      simp only [step, addNewColorToSequence] at hcl
      split_ifs at hcl <;> simp_all
  | tap c =>
      exfalso
      have hskip : step t (Event.tap c) = t := by
        simp only [step]
        rw [handleColorPress_skip t c (Or.inr (Or.inr hgo))]
      rw [hskip] at hcl
      rw [hgo] at hcl
      exact Bool.noConfusion hcl

/-- The PlayerTurn reading negates the skip guard of handleColorPress. -/
theorem playerTurn_guard {s : GameState}
    (hpt : engineState s = EngineState.playerTurn) :
    ¬(¬s.gameStarted ∨ ¬s.isPlayerTurn ∨ s.gameOver) := by
  rw [engineState_playerTurn_iff] at hpt
  simp [hpt.1, hpt.2.1, hpt.2.2]

/-- C1: in PlayerTurn, a tap whose color differs from the sequence element
at the tap index transitions the engine to GameOver in that same step,
leaves the score unchanged, clears sequence and playerSequence, and while
the gameOver flag is set every tap is a no-op and only startGame leaves the
GameOver state. -/
theorem c1_mismatch_tap_game_over (s : GameState) (c d : Color)
    (hpt : engineState s = EngineState.playerTurn)
    (hd : s.sequence[s.playerSequence.length]? = some d)
    (hne : c ≠ d) :
    engineState (step s (Event.tap c)) = EngineState.gameOver ∧
    (step s (Event.tap c)).score = s.score ∧
    (step s (Event.tap c)).sequence = [] ∧
    (step s (Event.tap c)).playerSequence = [] ∧
    (∀ t c2, t.gameOver = true → step t (Event.tap c2) = t) ∧
    (∀ t e, t.gameOver = true → (step t e).gameOver = false →
      ∃ c2, e = Event.startGame c2) := by
  have hg := playerTurn_guard hpt
  have hm := jsIndexNe_concat_true (l := s.playerSequence) hd hne
  have hstep : step s (Event.tap c) = endGame { s with gameOver := true } := by
    simp only [step]
    rw [handleColorPress_mismatch s c hg hm]
  have hf := endGame_fields { s with gameOver := true }
  refine ⟨?_, ?_, ?_, ?_, ?_, ?_⟩
  · rw [hstep]
    exact engineState_gameOver_of (hf.2.2.2.2.1.trans rfl)
  · rw [hstep]
    exact hf.1
  · rw [hstep]
    exact hf.2.2.1
  · rw [hstep]
    exact hf.2.2.2.1
  · intro t c2 hgo
    simp only [step]
    rw [handleColorPress_skip t c2 (Or.inr (Or.inr hgo))]
  · exact gameOver_cleared_only_by_start

/-- Witness for C1: from the reachable state after startGame(Green) and
playback completion, tapping Red is a mismatch that ends the game. -/
theorem c1_mismatch_tap_game_over_witness :
    engineState (step (run initialState [Event.startGame Color.green, Event.playbackDone])
      (Event.tap Color.red)) = EngineState.gameOver ∧
    (step (run initialState [Event.startGame Color.green, Event.playbackDone])
      (Event.tap Color.red)).sequence = [] :=
  ⟨(c1_mismatch_tap_game_over
      (run initialState [Event.startGame Color.green, Event.playbackDone])
      Color.red Color.green (by decide) (by decide) (by decide)).1,
   (c1_mismatch_tap_game_over
      (run initialState [Event.startGame Color.green, Event.playbackDone])
      Color.red Color.green (by decide) (by decide) (by decide)).2.2.1⟩

/-- C2: in PlayerTurn, a tap matching the sequence element at the current
index that completes the reproduction increments the score by exactly one
and schedules one grow timeout; when that timeout fires, exactly one new
color from the fixed 4-color set is appended to the sequence and the
engine re-enters Playback; and no transition other than such a completing
matching tap ever increases the score. -/
theorem c2_round_win (s : GameState) (c : Color)
    (hpt : engineState s = EngineState.playerTurn)
    (hd : s.sequence[s.playerSequence.length]? = some c)
    (hc : s.playerSequence.length + 1 = s.sequence.length) :
    (step s (Event.tap c)).score = s.score + 1 ∧
    (step s (Event.tap c)).pendingGrow = s.pendingGrow + 1 ∧
    (∀ c2, c2 ∈ colors ∧
      (step (step s (Event.tap c)) (Event.growFire c2)).sequence = s.sequence ++ [c2] ∧
      engineState (step (step s (Event.tap c)) (Event.growFire c2)) = EngineState.playback) ∧
    (∀ t e, t.score < (step t e).score →
      ∃ c3, e = Event.tap c3 ∧ (step t e).score = t.score + 1 ∧
        jsIndexNe (t.playerSequence ++ [c3]) t.sequence
          ((t.playerSequence ++ [c3]).length - 1) = false ∧
        (t.playerSequence ++ [c3]).length = t.sequence.length) := by
  have hflags := (engineState_playerTurn_iff s).mp hpt
  have hg := playerTurn_guard hpt
  have hm := jsIndexNe_concat_eq (l := s.playerSequence) hd
  have hlen : (s.playerSequence ++ [c]).length = s.sequence.length := by
    rw [List.length_append, List.length_singleton]
    exact hc
  have hstep : step s (Event.tap c) =
      { s with
          playerSequence := s.playerSequence ++ [c]
          score := s.score + 1
          pendingGrow := s.pendingGrow + 1 } := by
    simp only [step]
    rw [handleColorPress_complete s c hg hm hlen]
  refine ⟨by rw [hstep], by rw [hstep], ?_, ?_⟩
  · intro c2
    refine ⟨color_mem_colors c2, ?_, ?_⟩
    · rw [hstep]
      simp only [step, addNewColorToSequence]
      rw [if_pos (Nat.succ_ne_zero s.pendingGrow)]
    · rw [hstep]
      simp only [step, addNewColorToSequence]
      rw [if_pos (Nat.succ_ne_zero s.pendingGrow)]
      rw [engineState_playback_iff]
      exact ⟨hflags.1, hflags.2.1, rfl⟩
  · intro t e hinc
    rcases step_score t e with h | ⟨c3, _, h0⟩ | ⟨c3, he, h1, _, hm3, hc3⟩
    · exact absurd hinc (by rw [h]; exact Nat.lt_irrefl _)
    · exact absurd hinc (by rw [h0]; exact Nat.not_lt_zero _)
    · exact ⟨c3, he, h1, hm3, hc3⟩

/-- Witness for C2: after startGame(Green) and playback completion, tapping
Green completes the round: the score becomes 1, and the fired grow timeout
yields a length-2 sequence with playback re-entered. -/
theorem c2_round_win_witness :
    (step (run initialState [Event.startGame Color.green, Event.playbackDone])
      (Event.tap Color.green)).score =
      (run initialState [Event.startGame Color.green, Event.playbackDone]).score + 1 ∧
    (step (step (run initialState [Event.startGame Color.green, Event.playbackDone])
      (Event.tap Color.green)) (Event.growFire Color.blue)).sequence =
      (run initialState [Event.startGame Color.green, Event.playbackDone]).sequence ++
        [Color.blue] :=
  ⟨(c2_round_win (run initialState [Event.startGame Color.green, Event.playbackDone])
      Color.green (by decide) (by decide) (by decide)).1,
   ((c2_round_win (run initialState [Event.startGame Color.green, Event.playbackDone])
      Color.green (by decide) (by decide) (by decide)).2.2.1 Color.blue).2.1⟩

/-- C3: over any run of events the in-memory high score never decreases and
ends equal to the maximum of the initial high score and all scores recorded
at game ends; and whenever a game ends with a score strictly above the high
score, that score is written to the persistent store as its decimal string. -/
theorem c3_high_score_monotone_max (s : GameState) (evs : List Event) :
    s.highScore ≤ (run s evs).highScore ∧
    (run s evs).highScore = (endScores s evs).foldl max s.highScore ∧
    (∀ t c, isGameEnd t (Event.tap c) = true → t.highScore < t.score →
      (step t (Event.tap c)).store = some (toString t.score)) := by
  refine ⟨?_, run_highScore evs s, ?_⟩
  · rw [run_highScore]
    exact le_foldl_max _ _
  · intro t c hend hlt
    rw [step_store]
    rw [if_pos ⟨hend, hlt⟩]

/-- Witness for C3: a game ending at score 5 with stored best 3 raises the
high score to 5 and persists the string 5. -/
theorem c3_high_score_monotone_max_witness :
    ({ initialState with
        score := 5, highScore := 3, gameStarted := true, isPlayerTurn := true,
        sequence := [Color.green] } : GameState).highScore ≤
      (run { initialState with
        score := 5, highScore := 3, gameStarted := true, isPlayerTurn := true,
        sequence := [Color.green] } [Event.tap Color.red]).highScore ∧
    (step ({ initialState with
        score := 5, highScore := 3, gameStarted := true, isPlayerTurn := true,
        sequence := [Color.green] } : GameState) (Event.tap Color.red)).store =
      some (toString 5) :=
  ⟨(c3_high_score_monotone_max _ [Event.tap Color.red]).1,
   (c3_high_score_monotone_max
      ({ initialState with
        score := 5, highScore := 3, gameStarted := true, isPlayerTurn := true,
        sequence := [Color.green] } : GameState) [Event.tap Color.red]).2.2
      _ Color.red (by decide) (by decide)⟩

/-- C4 evaluation: handleStartGame cancels no timer, so the grow timeout
scheduled by a completed round before a restart survives the restart
(pendingGrow is still 1), and when it fires it mutates the new game:
the fresh length-1 sequence [Red] becomes [Red, Yellow] and the turn flag
is forced off by the stale addNewColorToSequence callback. -/
theorem c4_stale_grow_timer_pollutes_new_game :
    (run initialState [Event.startGame Color.green, Event.playbackDone,
      Event.tap Color.green, Event.startGame Color.red]).pendingGrow = 1 ∧
    (run initialState [Event.startGame Color.green, Event.playbackDone,
      Event.tap Color.green, Event.startGame Color.red]).sequence = [Color.red] ∧
    (run initialState [Event.startGame Color.green, Event.playbackDone,
      Event.tap Color.green, Event.startGame Color.red,
      Event.growFire Color.yellow]).sequence = [Color.red, Color.yellow] ∧
    (run initialState [Event.startGame Color.green, Event.playbackDone,
      Event.tap Color.green, Event.startGame Color.red,
      Event.growFire Color.yellow]).sequence.length = 2 := by
  decide

/-- C5 counterexample: after startGame(Green), playback completion and a
correct completing tap of Green, the engine is still in PlayerTurn with
playerSequence as long as sequence (the 1000 ms win delay has not fired),
and a further tap of Blue is accepted and processed: it changes the state
and sets the gameOver flag. -/
theorem c5_counterexample_win_delay_tap_processed :
    engineState (run initialState [Event.startGame Color.green, Event.playbackDone,
      Event.tap Color.green]) = EngineState.playerTurn ∧
    (run initialState [Event.startGame Color.green, Event.playbackDone,
      Event.tap Color.green]).playerSequence.length =
      (run initialState [Event.startGame Color.green, Event.playbackDone,
        Event.tap Color.green]).sequence.length ∧
    step (run initialState [Event.startGame Color.green, Event.playbackDone,
      Event.tap Color.green]) (Event.tap Color.blue) ≠
      run initialState [Event.startGame Color.green, Event.playbackDone,
        Event.tap Color.green] ∧
    (step (run initialState [Event.startGame Color.green, Event.playbackDone,
      Event.tap Color.green]) (Event.tap Color.blue)).gameOver = true := by
  decide

/-- C5 amended: a tap arriving in PlayerTurn while playerSequence is as
long as sequence (possible during the win delay, because the win
transition leaves isPlayerTurn set until the grow timeout fires) is
accepted and processed; the comparison index is then out of the sequence
bounds, so the tap registers as a mismatch and ends the game. -/
theorem c5_amended_win_delay_tap_is_mismatch (s : GameState) (c : Color)
    (hpt : engineState s = EngineState.playerTurn)
    (hlen : s.playerSequence.length = s.sequence.length) :
    (step s (Event.tap c)).gameOver = true ∧
    engineState (step s (Event.tap c)) = EngineState.gameOver := by
  have hg := playerTurn_guard hpt
  have hnone : s.sequence[s.playerSequence.length]? = none := by
    rw [hlen]
    exact List.getElem?_len_le (Nat.le_refl _)
  have hm := jsIndexNe_concat_none (c := c) hnone
  have hstep : step s (Event.tap c) = endGame { s with gameOver := true } := by
    simp only [step]
    rw [handleColorPress_mismatch s c hg hm]
  have hf := endGame_fields { s with gameOver := true }
  have hgo : (step s (Event.tap c)).gameOver = true := by
    rw [hstep]
    exact hf.2.2.2.2.1.trans rfl
  exact ⟨hgo, engineState_gameOver_of hgo⟩

/-- Witness for the amended C5 at the concrete win-delay state reached by
startGame(Green), playback completion and a correct tap of Green. -/
theorem c5_amended_win_delay_tap_is_mismatch_witness :
    (step (run initialState [Event.startGame Color.green, Event.playbackDone,
      Event.tap Color.green]) (Event.tap Color.yellow)).gameOver = true :=
  (c5_amended_win_delay_tap_is_mismatch
    (run initialState [Event.startGame Color.green, Event.playbackDone,
      Event.tap Color.green]) Color.yellow (by decide) (by decide)).1

/-- C6: from any prior state, startGame with the drawn first color yields
score 0, empty playerSequence, a sequence of length exactly one holding
that color from the fixed 4-color set, and the engine enters Playback. -/
theorem c6_start_game_reset (s : GameState) (c : Color) :
    (step s (Event.startGame c)).score = 0 ∧
    (step s (Event.startGame c)).playerSequence = [] ∧
    (step s (Event.startGame c)).sequence = [c] ∧
    (step s (Event.startGame c)).sequence.length = 1 ∧
    c ∈ colors ∧
    engineState (step s (Event.startGame c)) = EngineState.playback := by
  refine ⟨rfl, rfl, rfl, rfl, color_mem_colors c, ?_⟩
  rw [engineState_playback_iff]
  exact ⟨rfl, rfl, rfl⟩

/-- C7 evaluation: loadSettings applies parseInt with no NaN guard, so an
absent value loads 0, but a corrupt or non-numeric stored string loads NaN
rather than 0, and a stored negative numeral loads a negative value, so the
loaded high score is not always a non-negative integer. -/
theorem c7_corrupt_stored_high_score_loads_nan :
    loadSettings none = JsNum.val 0 ∧
    loadSettings (some "oops") = JsNum.nan ∧
    JsNum.nan ≠ JsNum.val 0 ∧
    loadSettings (some "") = JsNum.nan ∧
    loadSettings (some "-3") = JsNum.val (-3) := by
  decide

/-- C8: in every reachable state playerSequence is no longer than sequence
and equals the prefix of sequence of its own length; the invariant is
preserved by every engine operation since reachability is closed under
every event. -/
theorem c8_player_input_prefix_invariant {s : GameState} (h : Reachable s) :
    s.playerSequence.length ≤ s.sequence.length ∧
    s.playerSequence = s.sequence.take s.playerSequence.length := by
  have hp := reachable_playerPrefix h
  refine ⟨?_, hp⟩
  have hl := congrArg List.length hp
  rw [List.length_take] at hl
  exact hl ▸ Nat.min_le_right _ _

/-- Witness for C8 at the reachable PlayerTurn state after startGame(Green),
playback completion and a correct tap of Green. -/
theorem c8_player_input_prefix_invariant_witness :
    (step (step (step initialState (Event.startGame Color.green)) Event.playbackDone)
      (Event.tap Color.green)).playerSequence.length ≤
      (step (step (step initialState (Event.startGame Color.green)) Event.playbackDone)
        (Event.tap Color.green)).sequence.length :=
  (c8_player_input_prefix_invariant
    (Reachable.next
      (Reachable.next (Reachable.next Reachable.init (Event.startGame Color.green))
        Event.playbackDone)
      (Event.tap Color.green))).1

/-- C9: every tap processed in PlayerTurn emits the tone of the tapped
color first (sine waveform, duration 0.4 s) before the correctness check
resolves, in both the matching and the mismatching branch; a mismatching
tap additionally emits the error tone after it, with duration 0.8 s and the
different sawtooth waveform. -/
theorem c9_tap_tone_order_durations (s : GameState) (c : Color)
    (hpt : engineState s = EngineState.playerTurn) :
    ((handleColorPress s c).2).head? =
      some (playToneSpec (ToneArg.colorArg c) (2 / 5)) ∧
    (playToneSpec (ToneArg.colorArg c) (2 / 5)).duration = 2 / 5 ∧
    (playToneSpec (ToneArg.colorArg c) (2 / 5)).wave = Waveform.sine ∧
    (jsIndexNe (s.playerSequence ++ [c]) s.sequence
        ((s.playerSequence ++ [c]).length - 1) = true →
      (handleColorPress s c).2 =
        [playToneSpec (ToneArg.colorArg c) (2 / 5), playToneSpec ToneArg.errorArg (4 / 5)]) ∧
    (jsIndexNe (s.playerSequence ++ [c]) s.sequence
        ((s.playerSequence ++ [c]).length - 1) = false →
      (handleColorPress s c).2 = [playToneSpec (ToneArg.colorArg c) (2 / 5)]) ∧
    (playToneSpec ToneArg.errorArg (4 / 5)).duration = 4 / 5 ∧
    (playToneSpec ToneArg.errorArg (4 / 5)).wave = Waveform.sawtooth ∧
    Waveform.sawtooth ≠ Waveform.sine := by
  have hg := playerTurn_guard hpt
  have hhead : ((handleColorPress s c).2).head? =
      some (playToneSpec (ToneArg.colorArg c) (2 / 5)) := by
    by_cases hm : jsIndexNe (s.playerSequence ++ [c]) s.sequence
        ((s.playerSequence ++ [c]).length - 1) = true
    · rw [handleColorPress_mismatch s c hg hm]
      rfl
    · have hm2 := Bool.not_eq_true _ ▸ hm
      by_cases hcl : (s.playerSequence ++ [c]).length = s.sequence.length
      · rw [handleColorPress_complete s c hg hm2 hcl]
        rfl
      · rw [handleColorPress_advance s c hg hm2 hcl]
        rfl
  refine ⟨hhead, rfl, rfl, ?_, ?_, rfl, rfl, by decide⟩
  · intro hm
    rw [handleColorPress_mismatch s c hg hm]
  · intro hm2
    by_cases hcl : (s.playerSequence ++ [c]).length = s.sequence.length
    · rw [handleColorPress_complete s c hg hm2 hcl]
    · rw [handleColorPress_advance s c hg hm2 hcl]

/-- Witness for C9 at the reachable PlayerTurn state after startGame(Green)
and playback completion, tapping Blue: both tones are emitted, the tapped
color tone first. -/
theorem c9_tap_tone_order_durations_witness :
    ((handleColorPress (run initialState [Event.startGame Color.green, Event.playbackDone])
      Color.blue).2).head? = some (playToneSpec (ToneArg.colorArg Color.blue) (2 / 5)) :=
  (c9_tap_tone_order_durations
    (run initialState [Event.startGame Color.green, Event.playbackDone])
    Color.blue (by decide)).1

/-- C10: startGame during a game in progress (Playback or PlayerTurn)
leaves both the in-memory high score and the persistent store untouched
(even when the abandoned score exceeds the high score, since the equality
holds for every such state), and the high score or store change only at a
processed mismatching tap, never on restart. -/
theorem c10_restart_skips_high_score_update (s : GameState) (c : Color)
    (h : engineState s = EngineState.playback ∨ engineState s = EngineState.playerTurn) :
    (step s (Event.startGame c)).highScore = s.highScore ∧
    (step s (Event.startGame c)).store = s.store ∧
    (∀ t e, ((step t e).highScore ≠ t.highScore ∨ (step t e).store ≠ t.store) →
      ∃ c2, e = Event.tap c2 ∧ isGameEnd t e = true) := by
  refine ⟨rfl, rfl, ?_⟩
  intro t e he
  by_cases hend : isGameEnd t e = true
  · cases e with
    | tap c2 => exact ⟨c2, rfl, hend⟩
    | startGame c2 => exact absurd hend (by simp [isGameEnd])
    | playbackDone => exact absurd hend (by simp [isGameEnd])
    | growFire c2 => exact absurd hend (by simp [isGameEnd])
  · exfalso
    have hh := step_highScore t e
    rw [if_neg hend] at hh
    have hs := step_store t e
    rw [if_neg (fun hand => hend hand.1)] at hs
    rcases he with he | he
    · exact he hh
    · exact he hs

/-- Witness for C10: restarting from the Playback state right after
startGame(Green), with an abandoned score, changes neither the high score
nor the store. -/
theorem c10_restart_skips_high_score_update_witness :
    (step ({ initialState with
        score := 7, highScore := 2, gameStarted := true,
        sequence := [Color.green] } : GameState)
      (Event.startGame Color.red)).highScore =
      ({ initialState with
        score := 7, highScore := 2, gameStarted := true,
        sequence := [Color.green] } : GameState).highScore :=
  (c10_restart_skips_high_score_update
    ({ initialState with
        score := 7, highScore := 2, gameStarted := true,
        sequence := [Color.green] } : GameState)
    Color.red (Or.inl (by decide))).1

end Simon
